import Mathlib

/-!
Verification development for the rtsp-rs core message model: header names
(`src/header/name.rs`), the `Content-Length` typed header
(`src/header/types/content_length.rs`), and the request/response builders
(`src/request.rs`, `src/response.rs`).

Byte strings are modelled as `List Nat` (one `Nat` per byte).  Rust's
`Result<T, E>` is modelled as `Except E T`, and `&mut self` methods are
modelled by explicit state passing (the method returns the updated value).
-/

set_option maxHeartbeats 1600000
set_option maxRecDepth 8000

namespace RtspRs

instance {ε α : Type _} [DecidableEq ε] [DecidableEq α] : DecidableEq (Except ε α) := fun x y =>
  match x, y with
  | .ok a, .ok b =>
      if h : a = b then .isTrue (by rw [h]) else .isFalse (by intro hh; cases hh; exact h rfl)
  | .ok _, .error _ => .isFalse (by intro hh; cases hh)
  | .error _, .ok _ => .isFalse (by intro hh; cases hh)
  | .error e, .error f =>
      if h : e = f then .isTrue (by rw [h]) else .isFalse (by intro hh; cases hh; exact h rfl)

/-- Bytes of a string literal (all names used here are ASCII). -/
def strBytes (s : String) : List Nat :=
  s.toList.map Char.toNat

/-- ASCII lowercasing of one byte, as done by the Rust `u8::to_ascii_lowercase`. -/
def toLowerByte (c : Nat) : Nat :=
  if 65 ≤ c ∧ c ≤ 90 then c + 32 else c

/-- ASCII lowercasing of a byte string, as done by the Rust `<[u8]>::to_ascii_lowercase`. -/
def toAsciiLowercase (v : List Nat) : List Nat :=
  v.map toLowerByte

/-- ASCII uppercasing of a byte string, as done by the Rust
`<[u8]>::to_ascii_uppercase` (used by the spec property being checked). -/
def toAsciiUppercase (v : List Nat) : List Nat :=
  v.map (fun c => if 97 ≤ c ∧ c ≤ 122 then c - 32 else c)

/-- Modelled from the spec: token characters per RFC 7826 §20 are alphanumerics
plus a restricted set of punctuation; the recognizer lives in the repository
module that defines the grammar predicates, which is not under `src/`.
The special byte values below are 33 (bang), 35 (hash), 36 (dollar),
37 (percent), 38 (ampersand), 39 (apostrophe), 42 (star), 43 (plus),
45 (minus), 46 (dot), 94 (caret), 95 (underscore), 96 (backquote),
124 (pipe), 126 (tilde). -/
def isTokenChar (c : Nat) : Bool :=
  decide ((48 ≤ c ∧ c ≤ 57) ∨ (65 ≤ c ∧ c ≤ 90) ∨ (97 ≤ c ∧ c ≤ 122) ∨
    c = 33 ∨ c = 35 ∨ c = 36 ∨ c = 37 ∨ c = 38 ∨ c = 39 ∨ c = 42 ∨ c = 43 ∨
    c = 45 ∨ c = 46 ∨ c = 94 ∨ c = 95 ∨ c = 96 ∨ c = 124 ∨ c = 126)

/-- Modelled from the spec: a token is a non-empty string of token characters
(RFC 7826 §20 `token = 1*tchar`); embeds `syntax::is_token`. -/
def is_token (v : List Nat) : Bool :=
  !v.isEmpty && v.all isTokenChar

/-- Modelled from the spec: the maximum header-name length accepted by the
decoder and by `HeaderName::try_from` is 128 (`MAX_HEADER_NAME_LENGTH`, defined
in `src/header/mod.rs`, which is not under `src/`; spec §4.1). -/
def MAX_HEADER_NAME_LENGTH : Nat := 128

/-- The error returned by `HeaderName::try_from` (`src/header/name.rs`). -/
inductive InvalidHeaderName where
  | invalid
deriving DecidableEq, Repr

/-- An RTSP header name: the 58 standardized names plus `Extension`
(`src/header/name.rs`, generated by the `standard_headers!` macro).
The `Extension` constructor carries the canonical (original-case) bytes and the
lowercase bytes, mirroring `ExtensionHeaderName(AsciiString, AsciiString)`.
Structural equality of this inductive models the derived `PartialEq`/`Eq`
of `HeaderName` and `ExtensionHeaderName`, which compare all fields. -/
inductive HeaderName where
  | Accept
  | AcceptCredentials
  | AcceptEncoding
  | AcceptLanguage
  | AcceptRanges
  | Allow
  | AuthenticationInfo
  | Authorization
  | Bandwidth
  | Blocksize
  | CacheControl
  | Connection
  | ConnectionCredentials
  | ContentBase
  | ContentEncoding
  | ContentLanguage
  | ContentLength
  | ContentLocation
  | ContentType
  | CSeq
  | Date
  | Expires
  | From
  | IfMatch
  | IfModifiedSince
  | IfNoneMatch
  | LastModified
  | Location
  | MediaProperties
  | MediaRange
  | MTag
  | NotifyReason
  | PipelinedRequests
  | ProxyAuthenticate
  | ProxyAuthenticationInfo
  | ProxyAuthorization
  | ProxyRequire
  | ProxySupported
  | Public
  | Range
  | Referrer
  | RequestStatus
  | Require
  | RetryAfter
  | RTPInfo
  | Scale
  | SeekStyle
  | Server
  | Session
  | Speed
  | Supported
  | TerminateReason
  | Timestamp
  | Transport
  | Unsupported
  | UserAgent
  | Via
  | WWWAuthenticate
  | Extension (canonical lower : List Nat)
deriving Repr

namespace HeaderName

/-- Injection of a header name into a discriminant and the extension payload,
used only to decide the structural equality below (the automatically derived
decision procedure produces an impractically large term for 59
constructors). -/
def encode : HeaderName → Nat × List Nat × List Nat
  | Accept => (0, [], [])
  | AcceptCredentials => (1, [], [])
  | AcceptEncoding => (2, [], [])
  | AcceptLanguage => (3, [], [])
  | AcceptRanges => (4, [], [])
  | Allow => (5, [], [])
  | AuthenticationInfo => (6, [], [])
  | Authorization => (7, [], [])
  | Bandwidth => (8, [], [])
  | Blocksize => (9, [], [])
  | CacheControl => (10, [], [])
  | Connection => (11, [], [])
  | ConnectionCredentials => (12, [], [])
  | ContentBase => (13, [], [])
  | ContentEncoding => (14, [], [])
  | ContentLanguage => (15, [], [])
  | ContentLength => (16, [], [])
  | ContentLocation => (17, [], [])
  | ContentType => (18, [], [])
  | CSeq => (19, [], [])
  | Date => (20, [], [])
  | Expires => (21, [], [])
  | From => (22, [], [])
  | IfMatch => (23, [], [])
  | IfModifiedSince => (24, [], [])
  | IfNoneMatch => (25, [], [])
  | LastModified => (26, [], [])
  | Location => (27, [], [])
  | MediaProperties => (28, [], [])
  | MediaRange => (29, [], [])
  | MTag => (30, [], [])
  | NotifyReason => (31, [], [])
  | PipelinedRequests => (32, [], [])
  | ProxyAuthenticate => (33, [], [])
  | ProxyAuthenticationInfo => (34, [], [])
  | ProxyAuthorization => (35, [], [])
  | ProxyRequire => (36, [], [])
  | ProxySupported => (37, [], [])
  | Public => (38, [], [])
  | Range => (39, [], [])
  | Referrer => (40, [], [])
  | RequestStatus => (41, [], [])
  | Require => (42, [], [])
  | RetryAfter => (43, [], [])
  | RTPInfo => (44, [], [])
  | Scale => (45, [], [])
  | SeekStyle => (46, [], [])
  | Server => (47, [], [])
  | Session => (48, [], [])
  | Speed => (49, [], [])
  | Supported => (50, [], [])
  | TerminateReason => (51, [], [])
  | Timestamp => (52, [], [])
  | Transport => (53, [], [])
  | Unsupported => (54, [], [])
  | UserAgent => (55, [], [])
  | Via => (56, [], [])
  | WWWAuthenticate => (57, [], [])
  | Extension c l => (58, c, l)

/-- Left inverse of `encode`. -/
def decode : Nat × List Nat × List Nat → HeaderName
  | (0, _, _) => Accept
  | (1, _, _) => AcceptCredentials
  | (2, _, _) => AcceptEncoding
  | (3, _, _) => AcceptLanguage
  | (4, _, _) => AcceptRanges
  | (5, _, _) => Allow
  | (6, _, _) => AuthenticationInfo
  | (7, _, _) => Authorization
  | (8, _, _) => Bandwidth
  | (9, _, _) => Blocksize
  | (10, _, _) => CacheControl
  | (11, _, _) => Connection
  | (12, _, _) => ConnectionCredentials
  | (13, _, _) => ContentBase
  | (14, _, _) => ContentEncoding
  | (15, _, _) => ContentLanguage
  | (16, _, _) => ContentLength
  | (17, _, _) => ContentLocation
  | (18, _, _) => ContentType
  | (19, _, _) => CSeq
  | (20, _, _) => Date
  | (21, _, _) => Expires
  | (22, _, _) => From
  | (23, _, _) => IfMatch
  | (24, _, _) => IfModifiedSince
  | (25, _, _) => IfNoneMatch
  | (26, _, _) => LastModified
  | (27, _, _) => Location
  | (28, _, _) => MediaProperties
  | (29, _, _) => MediaRange
  | (30, _, _) => MTag
  | (31, _, _) => NotifyReason
  | (32, _, _) => PipelinedRequests
  | (33, _, _) => ProxyAuthenticate
  | (34, _, _) => ProxyAuthenticationInfo
  | (35, _, _) => ProxyAuthorization
  | (36, _, _) => ProxyRequire
  | (37, _, _) => ProxySupported
  | (38, _, _) => Public
  | (39, _, _) => Range
  | (40, _, _) => Referrer
  | (41, _, _) => RequestStatus
  | (42, _, _) => Require
  | (43, _, _) => RetryAfter
  | (44, _, _) => RTPInfo
  | (45, _, _) => Scale
  | (46, _, _) => SeekStyle
  | (47, _, _) => Server
  | (48, _, _) => Session
  | (49, _, _) => Speed
  | (50, _, _) => Supported
  | (51, _, _) => TerminateReason
  | (52, _, _) => Timestamp
  | (53, _, _) => Transport
  | (54, _, _) => Unsupported
  | (55, _, _) => UserAgent
  | (56, _, _) => Via
  | (57, _, _) => WWWAuthenticate
  | (_, c, l) => Extension c l

theorem decode_encode (h : HeaderName) : decode (encode h) = h := by
  cases h <;> rfl

instance : DecidableEq HeaderName := fun a b =>
  if h : encode a = encode b then
    Decidable.isTrue (by
      have hab := congrArg decode h
      rwa [decode_encode, decode_encode] at hab)
  else
    Decidable.isFalse (fun hab => h (by rw [hab]))

/-- Embeds `HeaderName::as_str` (`src/header/name.rs`): the lowercase name,
taken from the `standard_headers!` table; for extensions, the stored
lowercase field (`ExtensionHeaderName::as_str`). -/
def asStr : HeaderName → List Nat
  | Accept => strBytes "accept"
  | AcceptCredentials => strBytes "accept-credentials"
  | AcceptEncoding => strBytes "accept-encoding"
  | AcceptLanguage => strBytes "accept-language"
  | AcceptRanges => strBytes "accept-ranges"
  | Allow => strBytes "allow"
  | AuthenticationInfo => strBytes "authentication-info"
  | Authorization => strBytes "authorization"
  | Bandwidth => strBytes "bandwidth"
  | Blocksize => strBytes "blocksize"
  | CacheControl => strBytes "cache-control"
  | Connection => strBytes "connection"
  | ConnectionCredentials => strBytes "connection-credentials"
  | ContentBase => strBytes "content-base"
  | ContentEncoding => strBytes "content-encoding"
  | ContentLanguage => strBytes "content-language"
  | ContentLength => strBytes "content-length"
  | ContentLocation => strBytes "content-location"
  | ContentType => strBytes "content-type"
  | CSeq => strBytes "cseq"
  | Date => strBytes "date"
  | Expires => strBytes "expires"
  | From => strBytes "from"
  | IfMatch => strBytes "if-match"
  | IfModifiedSince => strBytes "if-modified-since"
  | IfNoneMatch => strBytes "if-none-match"
  | LastModified => strBytes "last-modified"
  | Location => strBytes "location"
  | MediaProperties => strBytes "media-properties"
  | MediaRange => strBytes "media-range"
  | MTag => strBytes "mtag"
  | NotifyReason => strBytes "notify-reason"
  | PipelinedRequests => strBytes "pipelined-requests"
  | ProxyAuthenticate => strBytes "proxy-authenticate"
  | ProxyAuthenticationInfo => strBytes "proxy-authentication-info"
  | ProxyAuthorization => strBytes "proxy-authorization"
  | ProxyRequire => strBytes "proxy-require"
  | ProxySupported => strBytes "proxy-supported"
  | Public => strBytes "public"
  | Range => strBytes "range"
  | Referrer => strBytes "referrer"
  | RequestStatus => strBytes "request-status"
  | Require => strBytes "require"
  | RetryAfter => strBytes "retry-after"
  | RTPInfo => strBytes "rtp-info"
  | Scale => strBytes "scale"
  | SeekStyle => strBytes "seek-style"
  | Server => strBytes "server"
  | Session => strBytes "session"
  | Speed => strBytes "speed"
  | Supported => strBytes "supported"
  | TerminateReason => strBytes "terminate-reason"
  | Timestamp => strBytes "timestamp"
  | Transport => strBytes "transport"
  | Unsupported => strBytes "unsupported"
  | UserAgent => strBytes "user-agent"
  | Via => strBytes "via"
  | WWWAuthenticate => strBytes "www-authenticate"
  | Extension _ lower => lower

/-- Embeds `HeaderName::canonical_name` (`src/header/name.rs`): the canonical
mixed-case name from the `standard_headers!` table; for extensions, the stored
original-case field (`ExtensionHeaderName::canonical_name`). -/
def canonicalName : HeaderName → List Nat
  | Accept => strBytes "Accept"
  | AcceptCredentials => strBytes "Accept-Credentials"
  | AcceptEncoding => strBytes "Accept-Encoding"
  | AcceptLanguage => strBytes "Accept-Language"
  | AcceptRanges => strBytes "Accept-Ranges"
  | Allow => strBytes "Allow"
  | AuthenticationInfo => strBytes "Authentication-Info"
  | Authorization => strBytes "Authorization"
  | Bandwidth => strBytes "Bandwidth"
  | Blocksize => strBytes "Blocksize"
  | CacheControl => strBytes "Cache-Control"
  | Connection => strBytes "Connection"
  | ConnectionCredentials => strBytes "Connection-Credentials"
  | ContentBase => strBytes "Content-Base"
  | ContentEncoding => strBytes "Content-Encoding"
  | ContentLanguage => strBytes "Content-Language"
  | ContentLength => strBytes "Content-Length"
  | ContentLocation => strBytes "Content-Location"
  | ContentType => strBytes "Content-Type"
  | CSeq => strBytes "CSeq"
  | Date => strBytes "Date"
  | Expires => strBytes "Expires"
  | From => strBytes "From"
  | IfMatch => strBytes "If-Match"
  | IfModifiedSince => strBytes "If-Modified-Since"
  | IfNoneMatch => strBytes "If-None-Match"
  | LastModified => strBytes "Last-Modified"
  | Location => strBytes "Location"
  | MediaProperties => strBytes "Media-Properties"
  | MediaRange => strBytes "Media-Range"
  | MTag => strBytes "MTag"
  | NotifyReason => strBytes "Notify-Reason"
  | PipelinedRequests => strBytes "Pipelined-Requests"
  | ProxyAuthenticate => strBytes "Proxy-Authenticate"
  | ProxyAuthenticationInfo => strBytes "Proxy-Authentication-Info"
  | ProxyAuthorization => strBytes "Proxy-Authorization"
  | ProxyRequire => strBytes "Proxy-Require"
  | ProxySupported => strBytes "Proxy-Supported"
  | Public => strBytes "Public"
  | Range => strBytes "Range"
  | Referrer => strBytes "Referrer"
  | RequestStatus => strBytes "Request-Status"
  | Require => strBytes "Require"
  | RetryAfter => strBytes "Retry-After"
  | RTPInfo => strBytes "RTP-Info"
  | Scale => strBytes "Scale"
  | SeekStyle => strBytes "Seek-Style"
  | Server => strBytes "Server"
  | Session => strBytes "Session"
  | Speed => strBytes "Speed"
  | Supported => strBytes "Supported"
  | TerminateReason => strBytes "Terminate-Reason"
  | Timestamp => strBytes "Timestamp"
  | Transport => strBytes "Transport"
  | Unsupported => strBytes "Unsupported"
  | UserAgent => strBytes "User-Agent"
  | Via => strBytes "Via"
  | WWWAuthenticate => strBytes "WWW-Authenticate"
  | Extension canonical _ => canonical

/-- Observational model of the derived `Hash` for `HeaderName`: the derived
instance hashes the variant discriminant, and for `Extension` delegates to the
manual `impl Hash for ExtensionHeaderName` (`src/header/name.rs` lines
411-415), which hashes only the second (lowercase) field.  Two header names
feed identical data to the hasher iff their `hashRepr` values are equal. -/
def hashRepr (h : HeaderName) : HeaderName ⊕ List Nat :=
  match h with
  | Extension _ lower => Sum.inr lower
  | std => Sum.inl std

/-- Embeds the private constructor `HeaderName::extension`
(`src/header/name.rs` lines 92-109): rejects non-token names, otherwise wraps
the original-case and lowercase byte strings. -/
def extension (name nameLower : List Nat) : Except InvalidHeaderName HeaderName :=
  if is_token name then Except.ok (Extension name nameLower)
  else Except.error InvalidHeaderName.invalid

/-- The length-then-content dispatch at the heart of `HeaderName::try_from`
(`src/header/name.rs` lines 265-382): the source matches on
`value_lower.len()` and, within each length arm, on the byte content; arms
whose patterns are exhausted fall through to `HeaderName::extension`.  Here
each arm yields `some variant` on a content match and `none` for the
fall-through. -/
def standardDispatch (l : List Nat) : Option HeaderName :=
  match l.length with
  | 3 =>
    if l = strBytes "via" then some Via else none
  | 4 =>
    if l = strBytes "cseq" then some CSeq
    else if l = strBytes "date" then some Date
    else if l = strBytes "from" then some From
    else if l = strBytes "mtag" then some MTag
    else none
  | 5 =>
    if l = strBytes "allow" then some Allow
    else if l = strBytes "range" then some Range
    else if l = strBytes "scale" then some Scale
    else if l = strBytes "speed" then some Speed
    else none
  | 6 =>
    if l = strBytes "accept" then some Accept
    else if l = strBytes "public" then some Public
    else if l = strBytes "server" then some Server
    else none
  | 7 =>
    if l = strBytes "expires" then some Expires
    else if l = strBytes "require" then some Require
    else if l = strBytes "session" then some Session
    else none
  | 8 =>
    if l = strBytes "if-match" then some IfMatch
    else if l = strBytes "location" then some Location
    else if l = strBytes "referrer" then some Referrer
    else if l = strBytes "rtp-info" then some RTPInfo
    else none
  | 9 =>
    if l = strBytes "bandwidth" then some Bandwidth
    else if l = strBytes "blocksize" then some Blocksize
    else if l = strBytes "supported" then some Supported
    else if l = strBytes "timestamp" then some Timestamp
    else if l = strBytes "transport" then some Transport
    else none
  | 10 =>
    if l = strBytes "connection" then some Connection
    else if l = strBytes "seek-style" then some SeekStyle
    else if l = strBytes "user-agent" then some UserAgent
    else none
  | 11 =>
    if l = strBytes "media-range" then some MediaRange
    else if l = strBytes "retry-after" then some RetryAfter
    else if l = strBytes "unsupported" then some Unsupported
    else none
  | 12 =>
    if l = strBytes "content-base" then some ContentBase
    else if l = strBytes "content-type" then some ContentType
    else none
  | 13 =>
    if l = strBytes "accept-ranges" then some AcceptRanges
    else if l = strBytes "authorization" then some Authorization
    else if l = strBytes "cache-control" then some CacheControl
    else if l = strBytes "if-none-match" then some IfNoneMatch
    else if l = strBytes "last-modified" then some LastModified
    else if l = strBytes "notify-reason" then some NotifyReason
    else if l = strBytes "proxy-require" then some ProxyRequire
    else none
  | 14 =>
    if l = strBytes "content-length" then some ContentLength
    else if l = strBytes "request-status" then some RequestStatus
    else none
  | 15 =>
    if l = strBytes "accept-encoding" then some AcceptEncoding
    else if l = strBytes "accept-language" then some AcceptLanguage
    else if l = strBytes "proxy-supported" then some ProxySupported
    else none
  | 16 =>
    if l = strBytes "content-encoding" then some ContentEncoding
    else if l = strBytes "content-language" then some ContentLanguage
    else if l = strBytes "content-location" then some ContentLocation
    else if l = strBytes "media-properties" then some MediaProperties
    else if l = strBytes "terminate-reason" then some TerminateReason
    else if l = strBytes "www-authenticate" then some WWWAuthenticate
    else none
  | 17 =>
    if l = strBytes "if-modified-since" then some IfModifiedSince
    else none
  | 18 =>
    if l = strBytes "accept-credentials" then some AcceptCredentials
    else if l = strBytes "pipelined-requests" then some PipelinedRequests
    else if l = strBytes "proxy-authenticate" then some ProxyAuthenticate
    else none
  | 19 =>
    if l = strBytes "authentication-info" then some AuthenticationInfo
    else if l = strBytes "proxy-authorization" then some ProxyAuthorization
    else none
  | 22 =>
    if l = strBytes "connection-credentials" then some ConnectionCredentials
    else none
  | 25 =>
    if l = strBytes "proxy-authentication-info" then some ProxyAuthenticationInfo
    else none
  | _ => none

/-- Embeds `impl TryFrom<&[u8]> for HeaderName` (`src/header/name.rs` lines
256-383): reject empty or over-long input, lowercase, dispatch on the
lowercase form by length then content, and fall back to
`HeaderName::extension` on no standard match. -/
def tryFrom (value : List Nat) : Except InvalidHeaderName HeaderName :=
  if value = [] ∨ MAX_HEADER_NAME_LENGTH < value.length then
    Except.error InvalidHeaderName.invalid
  else
    match standardDispatch (toAsciiLowercase value) with
    | some h => Except.ok h
    | none => extension value (toAsciiLowercase value)

/-- Reference definition following the words of the spec (§4.2): normalize to
lowercase, reject empty input, over-long input, or non-token bytes, then match
the 58 known lowercase forms by length then content; unknown token names
become `Extension`. -/
def tryFromSpec (v : List Nat) : Except InvalidHeaderName HeaderName :=
  if v = [] ∨ MAX_HEADER_NAME_LENGTH < v.length then
    Except.error InvalidHeaderName.invalid
  else if is_token v = false then
    Except.error InvalidHeaderName.invalid
  else
    match standardDispatch (toAsciiLowercase v) with
    | some h => Except.ok h
    | none => Except.ok (Extension v (toAsciiLowercase v))

end HeaderName

/-! The `Content-Length` typed header, `src/header/types/content_length.rs`.
A raw `HeaderValue` is modelled by the bytes of its string form (the values
involved here are printable ASCII, so bytes and characters coincide). -/

/-- A raw header value, modelled as the bytes of `HeaderValue::as_str`. -/
abbrev HeaderValue := List Nat

/-- The error type of typed-header conversions (`InvalidTypedHeader`). -/
inductive InvalidTypedHeader where
  | invalid
deriving DecidableEq, Repr

/-- Embeds `pub const MAX_CONTENT_LENGTH: u64 = 9_999_999_999_999_999_999`. -/
def MAX_CONTENT_LENGTH : Nat := 9999999999999999999

/-- The number of values a `usize` can take; `usize` is modelled as the
64-bit unsigned integer type (the common platform width). -/
def USIZE_BOUND : Nat := 2 ^ 64

/-- Modelled from the spec: `syntax::trim_whitespace_left` (not under `src/`)
removes leading linear whitespace, i.e. space (32) and horizontal tab (9)
bytes; spec §9 notes the source trims only leading whitespace here. -/
def trimWhitespaceLeft (v : List Nat) : List Nat :=
  v.dropWhile (fun c => c == 32 || c == 9)

/-- An ASCII decimal digit byte. -/
def isDigitByte (c : Nat) : Bool :=
  decide (48 ≤ c ∧ c ≤ 57)

/-- Digit-accumulation loop of the Rust `<usize as FromStr>::from_str`:
consume digit bytes, multiplying and adding with an overflow check at each
step (`checked_mul`/`checked_add`); any non-digit byte fails. -/
def parseDigitsAcc : List Nat → Nat → Option Nat
  | [], acc => some acc
  | c :: rest, acc =>
      if isDigitByte c then
        let acc2 := acc * 10 + (c - 48)
        if acc2 < USIZE_BOUND then parseDigitsAcc rest acc2 else none
      else none

/-- Embeds the Rust `str::parse::<usize>` on ASCII bytes: an optional leading
plus sign (43) followed by one or more digit bytes; the empty string, a lone
sign, a non-digit byte, or overflow past `usize` all fail. -/
def parseUsize (v : List Nat) : Option Nat :=
  match v with
  | [] => none
  | c :: rest =>
      if c = 43 then
        match rest with
        | [] => none
        | _ => parseDigitsAcc rest 0
      else parseDigitsAcc v 0

/-- The `ContentLength` newtype over `usize`
(`src/header/types/content_length.rs`). -/
structure ContentLength where
  val : Nat
deriving DecidableEq, Repr

namespace ContentLength

/-- Embeds `impl TryFrom<usize> for ContentLength`: values above
`MAX_CONTENT_LENGTH` are rejected. -/
def tryFrom (value : Nat) : Except InvalidTypedHeader ContentLength :=
  if MAX_CONTENT_LENGTH < value then Except.error InvalidTypedHeader.invalid
  else Except.ok ⟨value⟩

/-- Decimal digits of `n`, least significant first (empty for 0). -/
def toDigitsRev (n : Nat) : List Nat :=
  if h : n = 0 then [] else n % 10 :: toDigitsRev (n / 10)
decreasing_by exact Nat.div_lt_self (Nat.pos_of_ne_zero h) (by norm_num)

/-- Decimal ASCII bytes of `n`, embedding the Rust `usize::to_string`. -/
def natToBytes (n : Nat) : List Nat :=
  if n = 0 then [48] else (toDigitsRev n).reverse.map (fun d => d + 48)

/-- Embeds `ContentLength::to_header_raw`: a single raw value holding the
decimal string of the length. -/
def to_header_raw (c : ContentLength) : List HeaderValue :=
  [natToBytes c.val]

/-- Embeds `ContentLength::try_from_header_raw`: an empty list defaults to 0,
more than one value is an error, and a single value is left-trimmed, parsed
as `usize`, and bounded by `MAX_CONTENT_LENGTH` via `TryFrom<usize>`. -/
def try_from_header_raw (header : List HeaderValue) :
    Except InvalidTypedHeader ContentLength :=
  match header with
  | [] => Except.ok ⟨0⟩
  | [v] =>
      match parseUsize (trimWhitespaceLeft v) with
      | some n => tryFrom n
      | none => Except.error InvalidTypedHeader.invalid
  | _ => Except.error InvalidTypedHeader.invalid

end ContentLength

/-- Declarative description of the strings accepted by the single-value
`Content-Length` parse: after removing leading whitespace, an optional plus
sign followed by one or more ASCII digits whose value fits in `usize`. -/
def ParsesTo (v : List Nat) (n : Nat) : Prop :=
  let t := trimWhitespaceLeft v
  let d := if t.head? = some 43 then t.tail else t
  d ≠ [] ∧ (∀ c ∈ d, isDigitByte c = true) ∧
    d.foldl (fun a c => a * 10 + (c - 48)) 0 = n ∧ n < USIZE_BOUND

instance (v : List Nat) (n : Nat) : Decidable (ParsesTo v n) := by
  unfold ParsesTo
  exact inferInstance

/-! Request and response builders, `src/request.rs` and `src/response.rs`.
The supporting types `Method`, `RequestURIField`, `Version`, `StatusCode`,
`ReasonPhrase` and the header map live in repository modules that are not
under `src/`; they are modelled from the spec and used opaquely.  The generic
`TryFrom` conversions performed by the fluent mutators are modelled by
passing the conversion result (`Except Unit _`) as the argument. -/

/-- Modelled from the spec (§3): an RTSP method is one of the ten known verbs
or a validated extension token (`method.rs` is not under `src/`). -/
inductive Method where
  | Describe
  | GetParameter
  | Options
  | Pause
  | Play
  | PlayNotify
  | Redirect
  | Setup
  | SetParameter
  | Teardown
  | Extension (token : List Nat)
deriving DecidableEq, Repr

/-- Modelled from the spec (§3): the request URI is an absolute RTSP URI or
the literal star (`uri.rs` is not under `src/`). -/
inductive RequestURIField where
  | Asterisk
  | URI (bytes : List Nat)
deriving DecidableEq, Repr

/-- Modelled from the spec (§4.4): protocol versions; RTSP/2.0 is the only
supported one, other accepted versions exist (`version.rs` is not under
`src/`). The default is RTSP/2.0. -/
inductive Version where
  | RTSP10
  | RTSP20
deriving DecidableEq, Repr

/-- Modelled from the spec (§3): the ordered header map; the builder claims
need only the default (empty) map and `append`, so it is modelled as the
ordered list of appended pairs (the header map module is not under `src/`). -/
abbrev HeaderMap := List (HeaderName × HeaderValue)

/-- The `Request` struct (`src/request.rs`), fields in source order. -/
structure Request (B : Type) where
  body : B
  headers : HeaderMap
  method : Method
  uri : RequestURIField
  version : Version
deriving DecidableEq, Repr

/-- The request `BuilderError` enum (`src/request.rs`). -/
inductive RequestBuilderError where
  | InvalidHeaderName
  | InvalidHeaderValue
  | InvalidMethod
  | InvalidRequestURI
  | InvalidVersion
  | MissingMethod
  | MissingRequestURI
  | UnsupportedVersion
deriving DecidableEq, Repr

/-- The request `Builder` struct (`src/request.rs`), fields in source order. -/
structure RequestBuilder where
  error : Option RequestBuilderError
  headers : HeaderMap
  method : Option Method
  uri : Option RequestURIField
  version : Version
deriving DecidableEq, Repr

namespace RequestBuilder

/-- Embeds `Builder::new` / `Builder::default` (`src/request.rs`). -/
def new : RequestBuilder :=
  { error := none, headers := [], method := none, uri := none, version := Version.RTSP20 }

/-- Embeds `Builder::build` (`src/request.rs` lines 351-371).  The builder is
taken and returned (`&mut self`): a stored error is returned untouched;
otherwise `mem::replace` takes the method out (always), then the URI, and on
success the headers are replaced by the default map. -/
def build {B : Type} (b : RequestBuilder) (body : B) :
    RequestBuilder × Except RequestBuilderError (Request B) :=
  match b.error with
  | some e => (b, Except.error e)
  | none =>
      match b.method with
      | none => ({ b with method := none }, Except.error RequestBuilderError.MissingMethod)
      | some m =>
          match b.uri with
          | none =>
              ({ b with method := none, uri := none },
                Except.error RequestBuilderError.MissingRequestURI)
          | some u =>
              ({ b with method := none, uri := none, headers := [] },
                Except.ok ⟨body, b.headers, m, u, b.version⟩)

/-- Embeds `Builder::method` (`src/request.rs`): on conversion failure the
stored error is overwritten with `InvalidMethod`. -/
def setMethod (b : RequestBuilder) (m : Except Unit Method) : RequestBuilder :=
  match m with
  | Except.ok m => { b with method := some m }
  | Except.error _ => { b with error := some RequestBuilderError.InvalidMethod }

/-- Embeds `Builder::uri` (`src/request.rs`): on conversion failure the
stored error is overwritten with `InvalidRequestURI`. -/
def setUri (b : RequestBuilder) (u : Except Unit RequestURIField) : RequestBuilder :=
  match u with
  | Except.ok u => { b with uri := some u }
  | Except.error _ => { b with error := some RequestBuilderError.InvalidRequestURI }

/-- Embeds `Builder::version` (`src/request.rs`): only RTSP/2.0 is accepted;
an accepted but unsupported version stores `UnsupportedVersion`. -/
def setVersion (b : RequestBuilder) (v : Except Unit Version) : RequestBuilder :=
  match v with
  | Except.ok v =>
      if v = Version.RTSP20 then { b with version := v }
      else { b with error := some RequestBuilderError.UnsupportedVersion }
  | Except.error _ => { b with error := some RequestBuilderError.InvalidVersion }

/-- Embeds `Builder::header` (`src/request.rs`): appends a name/value pair,
or overwrites the stored error on conversion failure. -/
def appendHeader (b : RequestBuilder) (k : Except Unit HeaderName)
    (v : Except Unit HeaderValue) : RequestBuilder :=
  match k with
  | Except.ok k =>
      match v with
      | Except.ok v => { b with headers := b.headers ++ [(k, v)] }
      | Except.error _ => { b with error := some RequestBuilderError.InvalidHeaderValue }
  | Except.error _ => { b with error := some RequestBuilderError.InvalidHeaderName }

end RequestBuilder

/-- Modelled from the spec (§3): a reason phrase, an opaque validated byte
string (`reason.rs` is not under `src/`). -/
abbrev ReasonPhrase := List Nat

/-- Modelled from the spec (§3): a status code is a three-digit code; the
canonical (standard) codes carry a built-in reason phrase and extension codes
do not (`status.rs` is not under `src/`).  A representative set of canonical
codes named by the spec scenarios is included; the default is 200 OK. -/
inductive StatusCode where
  | OK
  | MovedPermanently
  | BadRequest
  | NotImplemented
  | Extension (code : Nat)
deriving DecidableEq, Repr

namespace StatusCode

/-- Modelled from the spec: `StatusCode::canonical_reason` yields the
built-in reason phrase for canonical codes and nothing for extensions. -/
def canonicalReason : StatusCode → Option ReasonPhrase
  | OK => some (strBytes "OK")
  | MovedPermanently => some (strBytes "Moved Permanently")
  | BadRequest => some (strBytes "Bad Request")
  | NotImplemented => some (strBytes "Not Implemented")
  | Extension _ => none

/-- Whether a status code is an extension code. -/
def isExtension : StatusCode → Bool
  | Extension _ => true
  | _ => false

end StatusCode

/-- The `Response` struct (`src/response.rs`), fields in source order. -/
structure Response (B : Type) where
  body : B
  reason_phrase : ReasonPhrase
  headers : HeaderMap
  status_code : StatusCode
  version : Version
deriving DecidableEq, Repr

/-- The response `BuilderError` enum (`src/response.rs`). -/
inductive ResponseBuilderError where
  | InvalidHeaderName
  | InvalidHeaderValue
  | InvalidReasonPhrase
  | InvalidStatusCode
  | InvalidVersion
  | MissingReasonPhrase
  | UnsupportedVersion
deriving DecidableEq, Repr

/-- The response `Builder` struct (`src/response.rs`), fields in source
order. -/
structure ResponseBuilder where
  custom_reason_phrase : Option ReasonPhrase
  error : Option ResponseBuilderError
  headers : HeaderMap
  status_code : StatusCode
  version : Version
deriving DecidableEq, Repr

namespace ResponseBuilder

/-- Embeds `Builder::new` / `Builder::default` (`src/response.rs`). -/
def new : ResponseBuilder :=
  { custom_reason_phrase := none, error := none, headers := [],
    status_code := StatusCode.OK, version := Version.RTSP20 }

/-- Embeds `Builder::build` (`src/response.rs` lines 231-256).  A stored
error is returned untouched.  With an extension status code and no custom
reason phrase the build fails with `MissingReasonPhrase`; with one, the
phrase is taken out of the builder (`Option::take`).  With a standard status
code the canonical reason is used — the stored custom phrase is ignored and
left in place.  On success the headers are replaced by the default map.  The
`expect` on `canonical_reason` cannot fire because every non-extension code
has a canonical reason. -/
def build {B : Type} (b : ResponseBuilder) (body : B) :
    ResponseBuilder × Except ResponseBuilderError (Response B) :=
  match b.error with
  | some e => (b, Except.error e)
  | none =>
      match b.status_code with
      | StatusCode.Extension code =>
          match b.custom_reason_phrase with
          | none => (b, Except.error ResponseBuilderError.MissingReasonPhrase)
          | some r =>
              ({ b with custom_reason_phrase := none, headers := [] },
                Except.ok ⟨body, r, b.headers, StatusCode.Extension code, b.version⟩)
      | s =>
          ({ b with headers := [] },
            Except.ok ⟨body, (s.canonicalReason).getD [], b.headers, s, b.version⟩)

/-- Embeds `Builder::reason` (`src/response.rs` lines 277-291): `Some` of a
valid phrase stores it, `Some` of an invalid phrase stores
`InvalidReasonPhrase`, and `None` clears the stored custom phrase. -/
def setReason (b : ResponseBuilder) (r : Option (Except Unit ReasonPhrase)) :
    ResponseBuilder :=
  match r with
  | some (Except.ok rp) => { b with custom_reason_phrase := some rp }
  | some (Except.error _) => { b with error := some ResponseBuilderError.InvalidReasonPhrase }
  | none => { b with custom_reason_phrase := none }

/-- Embeds `Builder::status_code` (`src/response.rs`). -/
def setStatusCode (b : ResponseBuilder) (s : Except Unit StatusCode) :
    ResponseBuilder :=
  match s with
  | Except.ok s => { b with status_code := s }
  | Except.error _ => { b with error := some ResponseBuilderError.InvalidStatusCode }

end ResponseBuilder

namespace HeaderName

/-- Embeds `impl PartialEq<str> for HeaderName` (`src/header/name.rs` lines
149-153): the lowercase form is compared against the ASCII-lowercased other
string; the `&str` impl (lines 174-178) is byte-for-byte the same
comparison. -/
def eqStr (h : HeaderName) (s : List Nat) : Bool :=
  h.asStr == toAsciiLowercase s

/-- Embeds `impl PartialEq<HeaderName> for str` (lines 155-159) and the
symmetric `&str` impl (lines 180-184). -/
def strEq (s : List Nat) (h : HeaderName) : Bool :=
  toAsciiLowercase s == h.asStr

/-- Embeds `impl PartialEq<String> for HeaderName` (lines 186-190): the
`String` is compared verbatim against the lowercase form, with no
lowercasing of the other side. -/
def eqString (h : HeaderName) (s : List Nat) : Bool :=
  h.asStr == s

/-- Embeds `impl PartialEq<HeaderName> for String` (lines 192-196). -/
def stringEq (s : List Nat) (h : HeaderName) : Bool :=
  s == h.asStr

end HeaderName

/-- Two byte strings are case-insensitively equal when their ASCII
lowercasings agree (the sense of comparison used by the spec). -/
def caseInsensitiveEq (s t : List Nat) : Prop :=
  toAsciiLowercase s = toAsciiLowercase t

instance (s t : List Nat) : Decidable (caseInsensitiveEq s t) := by
  unfold caseInsensitiveEq
  exact inferInstance

/-! Theorems: supporting lemmas followed by the claim theorems,
counterexamples and witnesses. -/

theorem isTokenChar_toLowerByte (c : Nat) :
    isTokenChar (toLowerByte c) = isTokenChar c := by
  unfold isTokenChar toLowerByte
  by_cases h : 65 ≤ c ∧ c ≤ 90
  · rw [if_pos h, decide_eq_decide]
    omega
  · rw [if_neg h]

theorem is_token_toAsciiLowercase (v : List Nat) :
    is_token (toAsciiLowercase v) = is_token v := by
  unfold is_token toAsciiLowercase
  cases v with
  | nil => rfl
  | cons c rest =>
      simp only [List.map_cons, List.isEmpty_cons, List.all_cons, List.all_map,
        Function.comp_def, isTokenChar_toLowerByte]

theorem length_toAsciiLowercase (v : List Nat) :
    (toAsciiLowercase v).length = v.length := by
  simp [toAsciiLowercase]

namespace HeaderName

/-- Every lowercase form matched by the standard dispatch is a token. -/
theorem standardDispatch_isToken {l : List Nat} {h : HeaderName}
    (hd : standardDispatch l = some h) : is_token l = true := by
  unfold standardDispatch at hd
  split at hd <;>
    first
      | exact Option.noConfusion hd
      | (split_ifs at hd <;>
          first
            | exact Option.noConfusion hd
            | (subst_vars; decide))

/-- The standard dispatch never yields an `Extension` value. -/
theorem standardDispatch_ne_extension {l : List Nat} {h : HeaderName}
    (hd : standardDispatch l = some h) (c ll : List Nat) : h ≠ Extension c ll := by
  unfold standardDispatch at hd
  split at hd <;>
    first
      | exact Option.noConfusion hd
      | (split_ifs at hd <;>
          first
            | exact Option.noConfusion hd
            | (injection hd with hh; subst hh; simp))

end HeaderName

/-- C1: the claim that `HeaderName::try_from(s)` and
`HeaderName::try_from(s.to_ascii_uppercase())` return equal values fails on
the code for the valid token `ext`.  The derived `PartialEq` of
`ExtensionHeaderName` compares both the canonical (original-case) field and
the lowercase field, so the two conversions produce unequal values, even
though both feed identical data to the hasher (the manual `Hash` impl hashes
only the lowercase field). -/
theorem C1_case_insensitive_equality_fails_for_extension :
    toAsciiUppercase (strBytes "ext") = strBytes "EXT" ∧
    is_token (strBytes "ext") = true ∧
    HeaderName.tryFrom (strBytes "ext") =
      Except.ok (HeaderName.Extension (strBytes "ext") (strBytes "ext")) ∧
    HeaderName.tryFrom (strBytes "EXT") =
      Except.ok (HeaderName.Extension (strBytes "EXT") (strBytes "ext")) ∧
    HeaderName.tryFrom (strBytes "ext") ≠ HeaderName.tryFrom (strBytes "EXT") ∧
    HeaderName.hashRepr (HeaderName.Extension (strBytes "ext") (strBytes "ext")) =
      HeaderName.hashRepr (HeaderName.Extension (strBytes "EXT") (strBytes "ext")) := by
  decide

/-- C2 counterexample: a valid token of length 129 is rejected by
`HeaderName::try_from`, so the claim that every valid token input is accepted
is false; the source also rejects inputs longer than
`MAX_HEADER_NAME_LENGTH` = 128. -/
theorem C2_long_token_rejected :
    is_token (List.replicate 129 97) = true ∧
    HeaderName.tryFrom (List.replicate 129 97) =
      Except.error InvalidHeaderName.invalid := by
  decide

/-- C2 (amended): `HeaderName::try_from` agrees with the spec-side reference
conversion everywhere, and it returns an error exactly on inputs that are
empty, longer than `MAX_HEADER_NAME_LENGTH` = 128 bytes, or not a valid
token; on all other inputs it lowercases, returns the matching standard
variant when the lowercase form is one of the 58 standard names, and
otherwise returns `Extension`. -/
theorem C2_tryFrom_characterization (v : List Nat) :
    HeaderName.tryFrom v = HeaderName.tryFromSpec v ∧
    (HeaderName.tryFrom v = Except.error InvalidHeaderName.invalid ↔
      (v = [] ∨ MAX_HEADER_NAME_LENGTH < v.length ∨ is_token v = false)) := by
  unfold HeaderName.tryFrom HeaderName.tryFromSpec
  by_cases hg : v = [] ∨ MAX_HEADER_NAME_LENGTH < v.length
  · rw [if_pos hg, if_pos hg]
    refine ⟨rfl, ?_⟩
    constructor
    · intro _
      tauto
    · intro _
      rfl
  · rw [if_neg hg, if_neg hg]
    push_neg at hg
    cases hd : HeaderName.standardDispatch (toAsciiLowercase v) with
    | some h =>
        have htok : is_token v = true := by
          rw [← is_token_toAsciiLowercase]
          exact HeaderName.standardDispatch_isToken hd
        rw [if_neg (by simp [htok])]
        refine ⟨rfl, ?_⟩
        constructor
        · intro hfalse
          exact Except.noConfusion hfalse
        · intro hr
          rcases hr with h1 | h2 | h3
          · exact absurd h1 hg.1
          · omega
          · rw [htok] at h3
            exact Bool.noConfusion h3
    | none =>
        unfold HeaderName.extension
        by_cases ht : is_token v = true
        · rw [if_pos ht, if_neg (by simp [ht])]
          refine ⟨rfl, ?_⟩
          constructor
          · intro hfalse
            exact Except.noConfusion hfalse
          · intro hr
            rcases hr with h1 | h2 | h3
            · exact absurd h1 hg.1
            · omega
            · rw [ht] at h3
              exact Bool.noConfusion h3
        · have ht' : is_token v = false := by
            cases hb : is_token v
            · rfl
            · exact absurd hb ht
          rw [if_neg (by simp [ht']), if_pos (by simp [ht'])]
          refine ⟨rfl, ?_⟩
          constructor
          · intro _
            tauto
          · intro _
            rfl

theorem le_foldl_digits (l : List Nat) (a : Nat) :
    a ≤ l.foldl (fun x c => x * 10 + (c - 48)) a := by
  induction l generalizing a with
  | nil => exact Nat.le_refl a
  | cons c rest ih =>
      calc a ≤ a * 10 + (c - 48) := by omega
      _ ≤ _ := ih (a * 10 + (c - 48))

theorem parseDigitsAcc_eq_some (l : List Nat) (acc n : Nat) :
    parseDigitsAcc l acc = some n ↔
      ((∀ c ∈ l, isDigitByte c = true) ∧
        n = l.foldl (fun a c => a * 10 + (c - 48)) acc ∧
        (l ≠ [] → n < USIZE_BOUND) ∧ acc ≤ n) := by
  induction l generalizing acc with
  | nil =>
      constructor
      · intro h
        have h2 : some acc = some n := h
        injection h2 with h2
        subst h2
        exact ⟨fun c hc => absurd hc (List.not_mem_nil c), rfl,
          fun hne => absurd rfl hne, Nat.le_refl acc⟩
      · rintro ⟨_, hn, _, _⟩
        show some acc = some n
        simp only [List.foldl_nil] at hn
        rw [hn]
  | cons c rest ih =>
      by_cases hc : isDigitByte c = true
      · by_cases hb : acc * 10 + (c - 48) < USIZE_BOUND
        · have hstep : parseDigitsAcc (c :: rest) acc =
              parseDigitsAcc rest (acc * 10 + (c - 48)) := by
            simp only [parseDigitsAcc, if_pos hc, if_pos hb]
          rw [hstep, ih]
          constructor
          · rintro ⟨hall, hn, hbound, hle⟩
            have hnB : n < USIZE_BOUND := by
              cases hr : rest with
              | nil =>
                  subst hr
                  simp only [List.foldl_nil] at hn
                  omega
              | cons d tl =>
                  subst hr
                  exact hbound (by simp)
            refine ⟨?_, ?_, ?_, ?_⟩
            · intro x hx
              rcases List.mem_cons.mp hx with h1 | h2
              · subst h1
                exact hc
              · exact hall x h2
            · exact hn
            · intro _
              exact hnB
            · omega
          · rintro ⟨hall, hn, hbound, hle⟩
            have hnB : n < USIZE_BOUND := hbound (by simp)
            have hle2 : acc * 10 + (c - 48) ≤ n := by
              rw [hn]
              exact le_foldl_digits rest (acc * 10 + (c - 48))
            refine ⟨?_, ?_, ?_, ?_⟩
            · intro x hx
              exact hall x (List.mem_cons_of_mem c hx)
            · exact hn
            · intro _
              exact hnB
            · exact hle2
        · have hstep : parseDigitsAcc (c :: rest) acc = none := by
            simp only [parseDigitsAcc, if_pos hc, if_neg hb]
          rw [hstep]
          constructor
          · intro h
            exact Option.noConfusion h
          · rintro ⟨hall, hn, hbound, hle⟩
            have hnB : n < USIZE_BOUND := hbound (by simp)
            have hle2 : acc * 10 + (c - 48) ≤ n := by
              rw [hn]
              exact le_foldl_digits rest (acc * 10 + (c - 48))
            omega
      · have hstep : parseDigitsAcc (c :: rest) acc = none := by
          simp only [parseDigitsAcc, if_neg hc]
        rw [hstep]
        constructor
        · intro h
          exact Option.noConfusion h
        · rintro ⟨hall, _, _, _⟩
          exact absurd (hall c (List.mem_cons_self c rest)) hc

theorem parseUsize_eq_some (t : List Nat) (n : Nat) :
    parseUsize t = some n ↔
      ((if t.head? = some 43 then t.tail else t) ≠ [] ∧
        (∀ c ∈ (if t.head? = some 43 then t.tail else t), isDigitByte c = true) ∧
        (if t.head? = some 43 then t.tail else t).foldl
          (fun a c => a * 10 + (c - 48)) 0 = n ∧
        n < USIZE_BOUND) := by
  cases t with
  | nil =>
      simp [parseUsize]
  | cons c rest =>
      by_cases hc : c = 43
      · subst hc
        have hd : (if (43 :: rest : List Nat).head? = some 43
            then (43 :: rest : List Nat).tail else 43 :: rest) = rest := by
          simp
        rw [hd]
        cases rest with
        | nil =>
            constructor
            · intro h
              exact Option.noConfusion (show (none : Option Nat) = some n from h)
            · rintro ⟨hne, _, _, _⟩
              exact absurd rfl hne
        | cons d tl =>
            have hstep : parseUsize (43 :: d :: tl) = parseDigitsAcc (d :: tl) 0 := by
              simp [parseUsize]
            rw [hstep, parseDigitsAcc_eq_some]
            constructor
            · rintro ⟨hall, hn, hbound, _⟩
              exact ⟨by simp, hall, hn.symm, hbound (by simp)⟩
            · rintro ⟨_, hall, hn, hB⟩
              exact ⟨hall, hn.symm, fun _ => hB, by omega⟩
      · have hd : (if (c :: rest : List Nat).head? = some 43
            then (c :: rest : List Nat).tail else c :: rest) = c :: rest := by
          simp [hc]
        rw [hd]
        have hstep : parseUsize (c :: rest) = parseDigitsAcc (c :: rest) 0 := by
          simp only [parseUsize, if_neg hc]
        rw [hstep, parseDigitsAcc_eq_some]
        constructor
        · rintro ⟨hall, hn, hbound, _⟩
          exact ⟨by simp, hall, hn.symm, hbound (by simp)⟩
        · rintro ⟨_, hall, hn, hB⟩
          exact ⟨hall, hn.symm, fun _ => hB, by omega⟩

/-- Characterization of the single-value decode path, shared by the claims
about `Content-Length`. -/
theorem try_from_header_raw_single (v : List Nat) (n : Nat) :
    ContentLength.try_from_header_raw [v] = Except.ok ⟨n⟩ ↔
      (ParsesTo v n ∧ n ≤ MAX_CONTENT_LENGTH) := by
  have hiff := parseUsize_eq_some (trimWhitespaceLeft v) n
  have hdef : ContentLength.try_from_header_raw [v] =
      (match parseUsize (trimWhitespaceLeft v) with
       | some m => ContentLength.tryFrom m
       | none => Except.error InvalidTypedHeader.invalid) := rfl
  rw [hdef]
  cases hp : parseUsize (trimWhitespaceLeft v) with
  | none =>
      rw [hp] at hiff
      constructor
      · intro h
        exact Except.noConfusion h
      · intro ⟨hpt, _⟩
        simp only [ParsesTo] at hpt
        exact Option.noConfusion (hiff.mpr hpt)
  | some m =>
      rw [hp] at hiff
      show ContentLength.tryFrom m = Except.ok ⟨n⟩ ↔ _
      unfold ContentLength.tryFrom
      by_cases hm : MAX_CONTENT_LENGTH < m
      · rw [if_pos hm]
        constructor
        · intro h
          exact Except.noConfusion h
        · intro ⟨hpt, hle⟩
          simp only [ParsesTo] at hpt
          have h2 : some m = some n := hiff.mpr hpt
          injection h2 with h2
          omega
      · rw [if_neg hm]
        constructor
        · intro h
          injection h with h1
          injection h1 with h1
          subst h1
          refine ⟨?_, by omega⟩
          simp only [ParsesTo]
          exact hiff.mp rfl
        · intro ⟨hpt, hle⟩
          simp only [ParsesTo] at hpt
          have h2 : some m = some n := hiff.mpr hpt
          injection h2 with h2
          rw [h2]

theorem toDigitsRev_lt_ten (n : Nat) :
    ∀ d ∈ ContentLength.toDigitsRev n, d < 10 := by
  induction n using Nat.strong_induction_on with
  | _ n ih =>
      rw [ContentLength.toDigitsRev]
      split_ifs with h
      · intro d hd
        exact absurd hd (List.not_mem_nil d)
      · intro d hd
        rcases List.mem_cons.mp hd with h1 | h2
        · subst h1
          exact Nat.mod_lt n (by norm_num)
        · exact ih (n / 10) (Nat.div_lt_self (Nat.pos_of_ne_zero h) (by norm_num)) d h2

theorem foldl_toDigitsRev_reverse (n : Nat) :
    ∀ a, (ContentLength.toDigitsRev n).reverse.foldl (fun x d => x * 10 + d) a =
      a * 10 ^ (ContentLength.toDigitsRev n).length + n := by
  induction n using Nat.strong_induction_on with
  | _ n ih =>
      intro a
      rw [ContentLength.toDigitsRev]
      split_ifs with h
      · subst h
        simp
      · have hrec := ih (n / 10) (Nat.div_lt_self (Nat.pos_of_ne_zero h) (by norm_num))
        simp only [List.reverse_cons, List.foldl_append, List.foldl_cons, List.foldl_nil,
          List.length_cons]
        rw [hrec a]
        have hexp : (a * 10 ^ (ContentLength.toDigitsRev (n / 10)).length + n / 10) * 10 +
            n % 10 =
            a * (10 ^ (ContentLength.toDigitsRev (n / 10)).length * 10) +
              (10 * (n / 10) + n % 10) := by
          ring
        rw [hexp, Nat.div_add_mod, pow_succ]

theorem digitsVal_natToBytes (n : Nat) :
    (ContentLength.natToBytes n).foldl (fun a c => a * 10 + (c - 48)) 0 = n := by
  unfold ContentLength.natToBytes
  split_ifs with h
  · subst h
    rfl
  · rw [List.foldl_map]
    have hfun : (fun (x c : Nat) => x * 10 + (c + 48 - 48)) = fun (x d : Nat) => x * 10 + d := by
      funext x c
      omega
    rw [show (fun (x c : Nat) => x * 10 + (c + 48 - 48)) = fun (x d : Nat) => x * 10 + d
      from hfun]
    rw [foldl_toDigitsRev_reverse n 0]
    simp

theorem natToBytes_digits (n : Nat) :
    ∀ c ∈ ContentLength.natToBytes n, isDigitByte c = true := by
  unfold ContentLength.natToBytes
  split_ifs with h
  · intro c hc
    rcases List.mem_singleton.mp hc with rfl
    decide
  · intro c hc
    rcases List.mem_map.mp hc with ⟨d, hd, rfl⟩
    have hlt : d < 10 := toDigitsRev_lt_ten n d (List.mem_reverse.mp hd)
    simp only [isDigitByte, decide_eq_true_eq]
    omega

theorem natToBytes_ne_nil (n : Nat) : ContentLength.natToBytes n ≠ [] := by
  unfold ContentLength.natToBytes
  split_ifs with h
  · simp
  · have hcons : ContentLength.toDigitsRev n = n % 10 :: ContentLength.toDigitsRev (n / 10) := by
      rw [ContentLength.toDigitsRev, dif_neg h]
    simp [hcons]

theorem trimWhitespaceLeft_digits (l : List Nat)
    (hall : ∀ c ∈ l, isDigitByte c = true) : trimWhitespaceLeft l = l := by
  cases l with
  | nil => rfl
  | cons c rest =>
      have hc := hall c (List.mem_cons_self c rest)
      simp only [isDigitByte, decide_eq_true_eq] at hc
      unfold trimWhitespaceLeft
      rw [List.dropWhile_cons, if_neg]
      simp only [Bool.or_eq_true, beq_iff_eq, not_or]
      omega

theorem parsesTo_natToBytes (n : Nat) (hB : n < USIZE_BOUND) :
    ParsesTo (ContentLength.natToBytes n) n := by
  have hall := natToBytes_digits n
  have htrim : trimWhitespaceLeft (ContentLength.natToBytes n) =
      ContentLength.natToBytes n := trimWhitespaceLeft_digits _ hall
  have hhead : (ContentLength.natToBytes n).head? ≠ some 43 := by
    cases hl : ContentLength.natToBytes n with
    | nil => simp
    | cons c rest =>
        have hc := hall c (by rw [hl]; exact List.mem_cons_self c rest)
        simp only [isDigitByte, decide_eq_true_eq] at hc
        simp only [List.head?_cons, ne_eq, Option.some.injEq]
        omega
  simp only [ParsesTo, htrim, if_neg hhead]
  exact ⟨natToBytes_ne_nil n, hall, digitsVal_natToBytes n, hB⟩

/-- C3 counterexample: the single-value parse accepts inputs that are not
1 to 19 ASCII digits — a 20-digit string with leading zeros, a value with a
leading plus sign, and a value with leading whitespace all succeed. -/
theorem C3_non_digit_inputs_accepted :
    ContentLength.try_from_header_raw [strBytes "00000000000000000001"] =
      Except.ok ⟨1⟩ ∧
    (strBytes "00000000000000000001").length = 20 ∧
    ContentLength.try_from_header_raw [strBytes "+5"] = Except.ok ⟨5⟩ ∧
    ContentLength.try_from_header_raw [strBytes " 17"] = Except.ok ⟨17⟩ := by
  decide

/-- C3 (amended): `ContentLength::try_from_header_raw` returns 0 for an empty
value list and an error for more than one value; a single value succeeds with
result `n` exactly when, after removing leading whitespace, it consists of an
optional plus sign followed by one or more ASCII digits (any count, leading
zeros allowed) denoting `n`, with `n` representable in `usize` and at most
`MAX_CONTENT_LENGTH`. -/
theorem C3_content_length_decode (header : List HeaderValue) :
    (header = [] → ContentLength.try_from_header_raw header = Except.ok ⟨0⟩) ∧
    (1 < header.length →
      ContentLength.try_from_header_raw header =
        Except.error InvalidTypedHeader.invalid) ∧
    (∀ v n, header = [v] →
      (ContentLength.try_from_header_raw header = Except.ok ⟨n⟩ ↔
        (ParsesTo v n ∧ n ≤ MAX_CONTENT_LENGTH))) := by
  refine ⟨?_, ?_, ?_⟩
  · intro h
    subst h
    rfl
  · intro h
    cases header with
    | nil => simp at h
    | cons a tl =>
        cases tl with
        | nil => simp at h
        | cons b tl2 => rfl
  · intro v n h
    subst h
    exact try_from_header_raw_single v n

/-- Witness for C3: the amended characterization applied to the empty list. -/
theorem C3_content_length_decode_witness :
    ContentLength.try_from_header_raw [] = Except.ok ⟨0⟩ :=
  (C3_content_length_decode []).1 rfl

/-- C4: decoding the raw header values produced by encoding restores every
`ContentLength` value: for every `n ≤ MAX_CONTENT_LENGTH`,
`ContentLength::try_from_header_raw(v.to_header_raw())` yields `Ok(v)`. -/
theorem C4_content_length_roundtrip (n : Nat) (h : n ≤ MAX_CONTENT_LENGTH) :
    ContentLength.try_from_header_raw (ContentLength.to_header_raw ⟨n⟩) =
      Except.ok ⟨n⟩ := by
  have hB : n < USIZE_BOUND := by
    have hlt : MAX_CONTENT_LENGTH < USIZE_BOUND := by
      norm_num [MAX_CONTENT_LENGTH, USIZE_BOUND]
    omega
  show ContentLength.try_from_header_raw [ContentLength.natToBytes n] = Except.ok ⟨n⟩
  rw [try_from_header_raw_single]
  exact ⟨parsesTo_natToBytes n hB, h⟩

/-- Witness for C4: the round trip evaluated at the value 10. -/
theorem C4_content_length_roundtrip_witness :
    ContentLength.try_from_header_raw (ContentLength.to_header_raw ⟨10⟩) =
      Except.ok ⟨10⟩ :=
  C4_content_length_roundtrip 10 (by decide)

/-- C5 counterexample: the stored builder error is the most recently stored
one, not the first.  A failing `method` call stores `InvalidMethod`, a
subsequent failing `uri` call overwrites it with `InvalidRequestURI`, and
`build` returns the latter. -/
theorem C5_first_error_not_returned :
    (((RequestBuilder.new.setMethod (Except.error ())).setUri
        (Except.error ())).build ()).2 =
      Except.error RequestBuilderError.InvalidRequestURI ∧
    RequestBuilderError.InvalidRequestURI ≠ RequestBuilderError.InvalidMethod := by
  decide

/-- C5 (amended): `build(body)` returns the stored builder-level error if one
exists — each failing mutator overwrites any previously stored error, so the
stored error is the most recently stored one; otherwise it returns
`MissingMethod` when no method was set, `MissingRequestURI` when a method was
set but no URI, and `Ok` with the accumulated method, URI, version, headers
and the given body when both were set. -/
theorem C5_request_build (B : Type) (b : RequestBuilder) (body : B) :
    (∀ e, b.error = some e → (b.build body).2 = Except.error e) ∧
    (b.error = none → b.method = none →
      (b.build body).2 = Except.error RequestBuilderError.MissingMethod) ∧
    (∀ m, b.error = none → b.method = some m → b.uri = none →
      (b.build body).2 = Except.error RequestBuilderError.MissingRequestURI) ∧
    (∀ m u, b.error = none → b.method = some m → b.uri = some u →
      (b.build body).2 = Except.ok ⟨body, b.headers, m, u, b.version⟩) ∧
    ((b.setMethod (Except.error ())).error = some RequestBuilderError.InvalidMethod) ∧
    ((b.setUri (Except.error ())).error = some RequestBuilderError.InvalidRequestURI) := by
  refine ⟨?_, ?_, ?_, ?_, ?_, ?_⟩
  · intro e he
    simp [RequestBuilder.build, he]
  · intro he hm
    simp [RequestBuilder.build, he, hm]
  · intro m he hm hu
    simp [RequestBuilder.build, he, hm, hu]
  · intro m u he hm hu
    simp [RequestBuilder.build, he, hm, hu]
  · simp [RequestBuilder.setMethod]
  · simp [RequestBuilder.setUri]

/-- Witness for C5: a fresh builder has no stored error and no method, so
`build` fails with `MissingMethod`. -/
theorem C5_request_build_witness :
    (RequestBuilder.new.build ()).2 = Except.error RequestBuilderError.MissingMethod :=
  (C5_request_build Unit RequestBuilder.new ()).2.1 rfl rfl

/-- C10: `build` does not consume the builder but resets its fields on
success: after an `Ok`, the builder has no method, no URI and the default
empty header map, so an immediately following `build` returns
`MissingMethod`. -/
theorem C10_request_build_resets (B B2 : Type) (b : RequestBuilder) (body : B)
    (body2 : B2) (r : Request B) (h : (b.build body).2 = Except.ok r) :
    (b.build body).1.method = none ∧
    (b.build body).1.uri = none ∧
    (b.build body).1.headers = [] ∧
    ((b.build body).1.build body2).2 = Except.error RequestBuilderError.MissingMethod := by
  cases herr : b.error with
  | some e => simp [RequestBuilder.build, herr] at h
  | none =>
      cases hm : b.method with
      | none => simp [RequestBuilder.build, herr, hm] at h
      | some m =>
          cases hu : b.uri with
          | none => simp [RequestBuilder.build, herr, hm, hu] at h
          | some u =>
              refine ⟨?_, ?_, ?_, ?_⟩ <;> simp [RequestBuilder.build, herr, hm, hu]

/-- Witness for C10: a builder with method OPTIONS and URI star builds
successfully, and the reset builder then fails with `MissingMethod`. -/
theorem C10_request_build_resets_witness :
    ((⟨none, [], some Method.Options, some RequestURIField.Asterisk, Version.RTSP20⟩ :
        RequestBuilder).build ()).1.method = none ∧
    ((⟨none, [], some Method.Options, some RequestURIField.Asterisk, Version.RTSP20⟩ :
        RequestBuilder).build ()).1.uri = none ∧
    ((⟨none, [], some Method.Options, some RequestURIField.Asterisk, Version.RTSP20⟩ :
        RequestBuilder).build ()).1.headers = [] ∧
    (((⟨none, [], some Method.Options, some RequestURIField.Asterisk, Version.RTSP20⟩ :
        RequestBuilder).build ()).1.build ()).2 =
      Except.error RequestBuilderError.MissingMethod :=
  C10_request_build_resets Unit Unit
    ⟨none, [], some Method.Options, some RequestURIField.Asterisk, Version.RTSP20⟩ () ()
    ⟨(), [], Method.Options, RequestURIField.Asterisk, Version.RTSP20⟩ (by decide)

/-- C6: when no builder-level error is stored, `build` returns
`MissingReasonPhrase` exactly when the status code is an extension code and
no custom reason phrase was supplied, and `MissingReasonPhrase` is the only
error it can return. -/
theorem C6_response_build_missing_reason (B : Type) (b : ResponseBuilder) (body : B)
    (he : b.error = none) :
    ((b.build body).2 = Except.error ResponseBuilderError.MissingReasonPhrase ↔
      (b.status_code.isExtension = true ∧ b.custom_reason_phrase = none)) ∧
    (∀ e, (b.build body).2 = Except.error e →
      e = ResponseBuilderError.MissingReasonPhrase) := by
  cases hs : b.status_code with
  | Extension code =>
      cases hc : b.custom_reason_phrase with
      | none =>
          simp [ResponseBuilder.build, he, hs, hc, StatusCode.isExtension]
      | some r =>
          simp [ResponseBuilder.build, he, hs, hc, StatusCode.isExtension]
  | OK => simp [ResponseBuilder.build, he, hs, StatusCode.isExtension]
  | MovedPermanently => simp [ResponseBuilder.build, he, hs, StatusCode.isExtension]
  | BadRequest => simp [ResponseBuilder.build, he, hs, StatusCode.isExtension]
  | NotImplemented => simp [ResponseBuilder.build, he, hs, StatusCode.isExtension]

/-- Witness for C6: an error-free builder with extension status 599 and no
custom reason phrase fails with `MissingReasonPhrase`. -/
theorem C6_response_build_missing_reason_witness :
    ((⟨none, none, [], StatusCode.Extension 599, Version.RTSP20⟩ :
        ResponseBuilder).build ()).2 =
      Except.error ResponseBuilderError.MissingReasonPhrase :=
  (C6_response_build_missing_reason Unit
    ⟨none, none, [], StatusCode.Extension 599, Version.RTSP20⟩ () rfl).1.mpr ⟨rfl, rfl⟩

/-- C7: the claim that a custom reason phrase supplied via
`Builder::reason(Some(r))` is used for a standard status code fails on the
code: `build` uses the canonical reason for every standard status code and
ignores the stored custom phrase (contradicting the builder field's own
documentation).  With default status 200 OK and custom reason
`Good Response`, the built response carries `OK`. -/
theorem C7_custom_reason_ignored_for_standard_status :
    ((ResponseBuilder.new.setReason
        (some (Except.ok (strBytes "Good Response")))).build ()).2 =
      Except.ok ⟨(), strBytes "OK", [], StatusCode.OK, Version.RTSP20⟩ ∧
    strBytes "OK" ≠ strBytes "Good Response" := by
  decide

theorem toLowerByte_idem (c : Nat) : toLowerByte (toLowerByte c) = toLowerByte c := by
  unfold toLowerByte
  split_ifs <;> omega

theorem toAsciiLowercase_idem (v : List Nat) :
    toAsciiLowercase (toAsciiLowercase v) = toAsciiLowercase v := by
  simp only [toAsciiLowercase, List.map_map, Function.comp_def, toLowerByte_idem]

/-- Inversion for `HeaderName::try_from` producing an extension: the stored
canonical form is the input and the stored lowercase form its ASCII
lowercasing, and the input is a valid token. -/
theorem tryFrom_extension_inv {v c l : List Nat}
    (h : HeaderName.tryFrom v = Except.ok (HeaderName.Extension c l)) :
    c = v ∧ l = toAsciiLowercase v ∧ is_token v = true := by
  unfold HeaderName.tryFrom at h
  split_ifs at h with hg
  case neg =>
    cases hd : HeaderName.standardDispatch (toAsciiLowercase v) with
    | some hn =>
        rw [hd] at h
        injection h with hh
        exact absurd hh (HeaderName.standardDispatch_ne_extension hd c l)
    | none =>
        rw [hd] at h
        unfold HeaderName.extension at h
        split_ifs at h with ht
        injection h with hh
        injection hh with h1 h2
        exact ⟨h1.symm, h2.symm, ht⟩

/-- Every header name obtained through `HeaderName::try_from` has a lowercase
`as_str` form (for the standard variants by the `standard_headers!` table,
for extensions by construction). -/
theorem asStr_lowercase_of_tryFrom {v : List Nat} {h : HeaderName}
    (hv : HeaderName.tryFrom v = Except.ok h) :
    toAsciiLowercase h.asStr = h.asStr := by
  cases h
  case Extension c l =>
    obtain ⟨h1, h2, h3⟩ := tryFrom_extension_inv hv
    subst h2
    exact toAsciiLowercase_idem v
  all_goals decide

/-- C8 counterexample: comparison of a `HeaderName` with a `String` is case
sensitive, unlike the `str` and `&str` comparisons.  `CSeq == "CSeq"`
(as `String`) is false even though `"CSeq"` case-insensitively equals the
lowercase form `cseq`. -/
theorem C8_string_comparison_case_sensitive :
    HeaderName.eqString HeaderName.CSeq (strBytes "CSeq") = false ∧
    HeaderName.stringEq (strBytes "CSeq") HeaderName.CSeq = false ∧
    caseInsensitiveEq (strBytes "CSeq") HeaderName.CSeq.asStr := by
  decide

/-- C8 (amended): for every header name `h` whose lowercase form is indeed
lowercase (which holds for every name obtained through the public
constructors) and every string `s`: compared as `str` or `&str`, `h` equals
`s` iff `s` case-insensitively equals the lowercase form of `h`; compared as
`String`, `h` equals `s` iff `s` equals the lowercase form exactly
(case-sensitively). -/
theorem C8_equality_characterization (h : HeaderName) (s : List Nat)
    (hlow : toAsciiLowercase h.asStr = h.asStr) :
    (HeaderName.eqStr h s = true ↔ caseInsensitiveEq s h.asStr) ∧
    (HeaderName.strEq s h = true ↔ caseInsensitiveEq s h.asStr) ∧
    (HeaderName.eqString h s = true ↔ s = h.asStr) ∧
    (HeaderName.stringEq s h = true ↔ s = h.asStr) := by
  unfold HeaderName.eqStr HeaderName.strEq HeaderName.eqString HeaderName.stringEq
    caseInsensitiveEq
  simp only [beq_iff_eq]
  refine ⟨?_, ?_, ?_, ?_⟩
  · rw [hlow]
    exact eq_comm
  · rw [hlow]
  · exact eq_comm
  · trivial

/-- Witness for C8: the characterization applied to `CSeq` and the string
`CSEQ`. -/
theorem C8_equality_characterization_witness :
    (HeaderName.eqStr HeaderName.CSeq (strBytes "CSEQ") = true ↔
      caseInsensitiveEq (strBytes "CSEQ") HeaderName.CSeq.asStr) ∧
    (HeaderName.strEq (strBytes "CSEQ") HeaderName.CSeq = true ↔
      caseInsensitiveEq (strBytes "CSEQ") HeaderName.CSeq.asStr) ∧
    (HeaderName.eqString HeaderName.CSeq (strBytes "CSEQ") = true ↔
      strBytes "CSEQ" = HeaderName.CSeq.asStr) ∧
    (HeaderName.stringEq (strBytes "CSEQ") HeaderName.CSeq = true ↔
      strBytes "CSEQ" = HeaderName.CSeq.asStr) :=
  C8_equality_characterization HeaderName.CSeq (strBytes "CSEQ") (by decide)

/-- C9: every `Extension` header name constructible through the public
interface (`HeaderName::try_from`) satisfies the invariant: the canonical
form is a valid token, the stored lowercase form is its ASCII lowercasing,
`as_str` returns the lowercase form, and `canonical_name` returns the
canonical form. -/
theorem C9_extension_invariant (v c l : List Nat)
    (h : HeaderName.tryFrom v = Except.ok (HeaderName.Extension c l)) :
    is_token c = true ∧ l = toAsciiLowercase c ∧
    (HeaderName.Extension c l).asStr = l ∧
    (HeaderName.Extension c l).canonicalName = c := by
  obtain ⟨h1, h2, h3⟩ := tryFrom_extension_inv h
  subst h1
  exact ⟨h3, h2, rfl, rfl⟩

/-- Witness for C9: the invariant for the extension name built from `Ext`. -/
theorem C9_extension_invariant_witness :
    is_token (strBytes "Ext") = true ∧
    strBytes "ext" = toAsciiLowercase (strBytes "Ext") ∧
    (HeaderName.Extension (strBytes "Ext") (strBytes "ext")).asStr = strBytes "ext" ∧
    (HeaderName.Extension (strBytes "Ext") (strBytes "ext")).canonicalName =
      strBytes "Ext" :=
  C9_extension_invariant (strBytes "Ext") (strBytes "Ext") (strBytes "ext") (by decide)

end RtspRs
